import Mathlib

/-!
A shallow embedding of the `lean-statemachine` engine (`src/lean.py`) together
with proofs about its model builder (`StateMachine.callbacks_init`), instance
construction (`StateMachine.__init__`), stepping (`StateMachine.cycle`) and
item access (`StateMachine.__getitem__`).

Python objects are modelled explicitly: `State` objects live in an immutable
store `sts : Nat → StateObj` (a state id plays the role of object identity),
`Transition` objects live in a mutable store inside the `Registry` (a
transition id plays the role of object identity; the build mutates a
transition's `name` and `callbacks` attributes).  The class-level attributes
`_states` and `_transitions` are declared on the base class `StateMachine`
and are therefore shared by every subclass; the `Registry` models exactly
that sharing: one `statesSet` and one `transIdx` for all machine classes,
plus a per-class `_initial_state` map (attribute assignment on a subclass
creates a per-subclass attribute).  Conditions and callbacks are user
methods; their bodies are abstracted by oracles (`condV`, `cbOk`), and
`cycle` additionally returns the trace of condition evaluations and callback
invocations so that ordering and short-circuit claims can be stated.
-/

namespace LeanSM

/-- A `State` object: `name`, `initial`, `final` (`desc` is never read by the
engine and is omitted). -/
structure StateObj where
  name : String
  initial : Bool
  final : Bool
deriving DecidableEq, Repr

/-- A `Transition` object: `_name` (an `Option`, `None` until defaulted),
`_state1`/`_state2` (state object ids), `_cond` (the condition method name,
`None` when absent) and the `callbacks` attribute set by the build. -/
structure TransObj where
  name : Option String
  state1 : Nat
  state2 : Nat
  cond : Option String
  callbacks : List String
deriving DecidableEq, Repr

/-- A class-body member that the builder classifies: a `State`-valued member
or a `Transition`-valued member (by object id). -/
inductive MemberVal where
  | stateM (sid : Nat)
  | transM (tid : Nat)
deriving DecidableEq, Repr

/-- A machine subclass: its name, its `__dict__` entries bound to `State` or
`Transition` objects in declaration order, and the names of its method
members (conditions and callbacks). -/
structure MachineCls where
  cname : String
  members : List (String × MemberVal)
  methods : List String
deriving DecidableEq, Repr

/-- The exceptions of `lean.py`: `StateException`, `TransitionException`,
`StateMachineException`, plus a Python `TypeError` and `AttributeError` and
an arbitrary exception raised by a user callback. -/
inductive SMErr where
  | stateErr (msg : String)
  | transErr (msg : String)
  | machineErr (msg : String)
  | typeErr
  | attrErr
  | userRaise (cb : String)
deriving DecidableEq, Repr

def oneInitialMsg : String := "Only one initial state per machine is permitted"
def stateNameMsg : String := "State must have a name"
def condMissingMsg : String := "no cond param or condition method needs implementing"
def dupTransMsg : String := "Duplicate transition"
def initialRequiredMsg : String := "One initial state must be defined"
def noTransDefinedMsg : String := "No transitions defined"
def noStateMsg : String := "State machine has no current state"
def noTransFoundClassMsg : String := "No transitions were found"
def noTransFromStateMsg : String := "No transitions found from state"
def condNotImplMsg : String := "Condition function is not yet implemented"

/-- Character-list matching at the front: the first list read as a pattern,
matched against the front of the second. -/
def charsLeadWith : List Char → List Char → Bool
  | [], _ => true
  | _ :: _, [] => false
  | a :: pr, b :: sr => if a = b then charsLeadWith pr sr else false

/-- `s.startswith(pat)` on Python strings. -/
def strStartsWith (s pat : String) : Bool := charsLeadWith pat.data s.data

/-- Membership of a string in a list of strings. -/
def strElem (n : String) (l : List String) : Bool := l.any (fun m => m = n)

/-- Association-list lookup (models dict lookup keyed by object id or name). -/
def alookup {α β : Type} [DecidableEq α] : List (α × β) → α → Option β
  | [], _ => none
  | (k, v) :: rest, a => if k = a then some v else alookup rest a

/-- Association-list update-or-append (models dict item assignment). -/
def aset {α β : Type} [DecidableEq α] : List (α × β) → α → β → List (α × β)
  | [], a, b => [(a, b)]
  | (k, v) :: rest, a, b => if k = a then (a, b) :: rest else (k, v) :: aset rest a b

/-- Association-list key removal (models resetting `cls._initial_state = None`:
afterwards the attribute is falsy / `is None`). -/
def aerase {α β : Type} [DecidableEq α] : List (α × β) → α → List (α × β)
  | [], _ => []
  | (k, v) :: rest, a => if k = a then aerase rest a else (k, v) :: aerase rest a

/-- `cls._transitions[s]` read without insertion: a missing key reads as `[]`. -/
def ddGet (idx : List (Nat × List Nat)) (k : Nat) : List Nat :=
  (alookup idx k).getD []

/-- `cls._transitions[s].append(t)` on the `defaultdict(list)`. -/
def ddAppend (idx : List (Nat × List Nat)) (k : Nat) (tid : Nat) : List (Nat × List Nat) :=
  aset idx k (ddGet idx k ++ [tid])

/-- `cls._states.add(s)`: set insertion by object identity. -/
def addSet (l : List Nat) (x : Nat) : List Nat :=
  if x ∈ l then l else l ++ [x]

/-- The shared class-level mutable data: the base-class `_states` set and
`_transitions` index (shared by every subclass), the per-subclass
`_initial_state` attributes, and the store of `Transition` objects. -/
structure Registry where
  statesSet : List Nat
  transIdx : List (Nat × List Nat)
  initMap : List (String × Nat)
  transStore : Nat → TransObj

/-- Non-underscore attributes reachable on the base class `StateMachine`
itself (relevant to `getattr(cls, name)` fallbacks). -/
def baseAttrs : List String :=
  ["is_initialized", "state", "states", "transitions", "callbacks_init", "cycle"]

/-- `getattr(cls, n, None) is not None` (and, for methods and data members,
truthiness): the name is a declared member, a method, or a base attribute. -/
def clsHasAttrB (cls : MachineCls) (n : String) : Bool :=
  cls.members.any (fun p => p.1 = n) || strElem n cls.methods || strElem n baseAttrs

/-- `if not attrib.name`: the name is falsy (absent or empty). -/
def nameFalsy : Option String → Bool
  | none => true
  | some s => s = ""

/-- Name defaulting (`attrib.name = name` when falsy). -/
def defaultName (mn : String) (t : TransObj) : TransObj :=
  if nameFalsy t.name then { t with name := some mn } else t

/-- Overwrite a transition object in the store. -/
def setTrans (reg : Registry) (tid : Nat) (t : TransObj) : Registry :=
  { reg with transStore := Function.update reg.transStore tid t }

/-- The five callback stage names for a transition, in the fixed order
`before_<t>`, `on_exit_<source>`, `on_<t>`, `after_<t>`, `on_enter_<target>`
(lines 220-224 of `lean.py`). -/
def stageList (sts : Nat → StateObj) (t : TransObj) : List String :=
  ["before_" ++ t.name.getD "", "on_exit_" ++ (sts t.state1).name,
   "on_" ++ t.name.getD "", "after_" ++ t.name.getD "",
   "on_enter_" ++ (sts t.state2).name]

/-- The precomputed callback pipeline: the stage names whose member exists on
the machine class, in stage order (lines 218-227 of `lean.py`). -/
def fiveStage (sts : Nat → StateObj) (cls : MachineCls) (t : TransObj) : List String :=
  (stageList sts t).filter (fun n => clsHasAttrB cls n)

/-- Processing one `State`-valued member (lines 189-199 of `lean.py`):
duplicate-initial check, initial recording, final counting, name check,
insertion into the shared `_states` set. -/
def procState (sts : Nat → StateObj) (cls : MachineCls) (reg : Registry) (fc : Nat)
    (sid : Nat) : Registry × Nat × Option SMErr :=
  let s := sts sid
  if s.initial ∧ (alookup reg.initMap cls.cname).isSome then
    (reg, fc, some (SMErr.stateErr oneInitialMsg))
  else
    let reg1 := if s.initial then { reg with initMap := aset reg.initMap cls.cname sid } else reg
    let fc1 := if s.final then fc + 1 else fc
    if s.name = "" then (reg1, fc1, some (SMErr.stateErr stateNameMsg))
    else ({ reg1 with statesSet := addSet reg1.statesSet sid }, fc1, none)

/-- Processing one `Transition`-valued member (lines 201-227 of `lean.py`):
name defaulting, condition resolution, identity-based duplicate check,
append to the shared outgoing index, callback-pipeline computation. -/
def procTrans (sts : Nat → StateObj) (cls : MachineCls) (reg : Registry) (fc : Nat)
    (mn : String) (tid : Nat) : Registry × Nat × Option SMErr :=
  let t := defaultName mn (reg.transStore tid)
  let reg1 := setTrans reg tid t
  match t.cond with
  | none => (reg1, fc, some (SMErr.transErr condMissingMsg))
  | some c =>
    if clsHasAttrB cls c then
      if tid ∈ ddGet reg1.transIdx t.state1 then
        (reg1, fc, some (SMErr.transErr dupTransMsg))
      else
        let reg2 := { setTrans reg1 tid { t with callbacks := fiveStage sts cls t } with
                      transIdx := ddAppend reg1.transIdx t.state1 tid }
        (reg2, fc, none)
    else (reg1, fc, some (SMErr.transErr condMissingMsg))

/-- Classify and process one member. -/
def procMember (sts : Nat → StateObj) (cls : MachineCls) (reg : Registry) (fc : Nat)
    (mn : String) (mv : MemberVal) : Registry × Nat × Option SMErr :=
  match mv with
  | .stateM sid => procState sts cls reg fc sid
  | .transM tid => procTrans sts cls reg fc mn tid

/-- The member loop of `callbacks_init` (line 186): members whose name starts
with an underscore are skipped; the first exception aborts the loop, leaving
the mutations made so far in place. -/
def procAll (sts : Nat → StateObj) (cls : MachineCls) :
    Registry → Nat → List (String × MemberVal) → Registry × Nat × Option SMErr
  | reg, fc, [] => (reg, fc, none)
  | reg, fc, (mn, mv) :: rest =>
    if strStartsWith mn "_" then procAll sts cls reg fc rest
    else
      match procMember sts cls reg fc mn mv with
      | (reg1, fc1, none) => procAll sts cls reg1 fc1 rest
      | (reg1, fc1, some e) => (reg1, fc1, some e)

/-- The resets at the top of `callbacks_init` (lines 177-184): set the
subclass's `_initial_state` to `None` and clear the shared `_states` and
`_transitions`. -/
def clearShared (cls : MachineCls) (reg : Registry) : Registry :=
  { reg with initMap := aerase reg.initMap cls.cname, statesSet := [], transIdx := [] }

/-- `StateMachine.callbacks_init` (lines 169-232): reset the subclass's
`_initial_state`, clear the shared `_states`/`_transitions`, run the member
loop, then check for a recorded initial state and a non-empty transition
index.  The count of final states is computed by the loop but never
checked, exactly as in the source.  On an exception the partially mutated
registry is kept (Python exceptions do not roll back assignments). -/
def callbacks_init (sts : Nat → StateObj) (cls : MachineCls) (reg : Registry) :
    Registry × Option SMErr :=
  let reg1 := clearShared cls reg
  match procAll sts cls reg1 0 cls.members with
  | (reg2, _, some e) => (reg2, some e)
  | (reg2, _, none) =>
    if (alookup reg2.initMap cls.cname).isNone then
      (reg2, some (SMErr.stateErr initialRequiredMsg))
    else if reg2.transIdx.isEmpty then
      (reg2, some (SMErr.transErr noTransDefinedMsg))
    else (reg2, none)

/-- Python attribute values observable through `getattr` and `__getitem__`:
`None`, booleans, strings, `State`/`Transition` objects (by id), bound
methods (by name), the shared `_states` set and `_transitions` index, and
opaque user objects such as the `model` collaborator (by id). -/
inductive PyVal where
  | vNone
  | vBool (b : Bool)
  | vStr (s : String)
  | vState (sid : Nat)
  | vTrans (tid : Nat)
  | vMethod (n : String)
  | vSet (l : List Nat)
  | vIdx (l : List (Nat × List Nat))
  | vObj (oid : Nat)
deriving DecidableEq, Repr

/-- A machine instance: its class, `self._state` (a state object or `None`)
and `self._first_run` in dedicated fields, and the rest of the instance
`__dict__` — the `_name`, `_desc` and `_model` entries assigned by
`__init__`, plus anything user callbacks set — in `attrs`. -/
structure Inst where
  cname : String
  stateSid : Option Nat
  firstRun : Bool
  attrs : List (String × PyVal)
deriving DecidableEq, Repr

/-- `StateMachine.is_initialized`: `getattr(cls, "_initial_state", None) is
not None`. -/
def isInitialized (cls : MachineCls) (reg : Registry) : Bool :=
  (alookup reg.initMap cls.cname).isSome

/-- `StateMachine.__init__` (lines 126-147): assign the instance attributes
`_name`, `_desc`, `_model` (from the constructor arguments; `desc` and
`model` default to `None`) and `_first_run = True`, run `callbacks_init`
once per subclass (guarded by `is_initialized`), propagate its exception if
any, then set `self._state = self._initial_state`. -/
def construct (sts : Nat → StateObj) (cls : MachineCls) (reg : Registry)
    (name : String) (desc model : PyVal) : Registry × Except SMErr Inst :=
  let attrs0 : List (String × PyVal) :=
    [("_name", .vStr name), ("_desc", desc), ("_model", model)]
  if isInitialized cls reg then
    (reg, .ok { cname := cls.cname, stateSid := alookup reg.initMap cls.cname,
                firstRun := true, attrs := attrs0 })
  else
    match callbacks_init sts cls reg with
    | (reg1, some e) => (reg1, .error e)
    | (reg1, none) =>
      (reg1, .ok { cname := cls.cname, stateSid := alookup reg1.initMap cls.cname,
                   firstRun := true, attrs := attrs0 })

/-- An observable event during `cycle`: a condition method evaluated for a
candidate transition, or a callback invoked. -/
inductive Ev where
  | condEval (method : String) (tid : Nat)
  | cbRun (method : String)
deriving DecidableEq, Repr

/-- The outcome of a `cycle` call: the returned value or propagated
exception (`.ok (some b)` is a Python `bool`, `.ok none` is Python `None`),
the instance afterwards, and the event trace. -/
structure CycleOut where
  res : Except SMErr (Option Bool)
  inst : Inst
  evs : List Ev
deriving Repr

/-- Run a transition's callback pipeline (lines 272-273): each callback is
invoked in order; a raising callback aborts the pipeline and its exception
propagates. -/
def runCallbacks (cbOk : String → Bool) : List String → List Ev × Option SMErr
  | [] => ([], none)
  | cb :: rest =>
    if cbOk cb then
      let r := runCallbacks cbOk rest
      (.cbRun cb :: r.1, r.2)
    else ([.cbRun cb], some (SMErr.userRaise cb))

/-- The candidate loop of `cycle` (lines 266-285): resolve each candidate's
condition on the class, evaluate it, and on the first truthy condition run
the callbacks, move to the target state and stop.  When no candidate
matches, fall through (the source then logs a warning and implicitly
returns `None`). -/
def fireLoop (sts : Nat → StateObj) (cls : MachineCls) (reg : Registry)
    (condV : String → Nat → Bool) (cbOk : String → Bool) (inst : Inst) :
    List Nat → CycleOut
  | [] => ⟨.ok none, inst, []⟩
  | tid :: rest =>
    let t := reg.transStore tid
    match t.cond with
    | none => ⟨.error SMErr.typeErr, inst, []⟩
    | some c =>
      if clsHasAttrB cls c then
        if condV c tid then
          let r := runCallbacks cbOk t.callbacks
          match r.2 with
          | some e => ⟨.error e, inst, .condEval c tid :: r.1⟩
          | none => ⟨.ok none, { inst with stateSid := some t.state2 },
                     .condEval c tid :: r.1⟩
        else
          let r := fireLoop sts cls reg condV cbOk inst rest
          ⟨r.res, r.inst, .condEval c tid :: r.evs⟩
      else ⟨.error (SMErr.transErr condNotImplMsg), inst, []⟩

/-- The body of `cycle` after the first-run checks (lines 255-292): return
`False` on a final state, fail when the shared index has no non-empty entry
for the current state, otherwise run the candidate loop. -/
def cycleCore (sts : Nat → StateObj) (cls : MachineCls) (reg : Registry)
    (condV : String → Nat → Bool) (cbOk : String → Bool) (inst : Inst) : CycleOut :=
  match inst.stateSid with
  | none => ⟨.error SMErr.attrErr, inst, []⟩
  | some sid =>
    if (sts sid).final then ⟨.ok (some false), inst, []⟩
    else
      match alookup reg.transIdx sid with
      | none => ⟨.error (SMErr.transErr noTransFromStateMsg), inst, []⟩
      | some [] => ⟨.error (SMErr.transErr noTransFromStateMsg), inst, []⟩
      | some cands => fireLoop sts cls reg condV cbOk inst cands

/-- `StateMachine.cycle` (lines 234-292): on the first call, clear
`_first_run` and check that the instance has a current state and that the
shared transition index is non-empty; then run the core. -/
def cycle (sts : Nat → StateObj) (cls : MachineCls) (reg : Registry)
    (condV : String → Nat → Bool) (cbOk : String → Bool) (inst : Inst) : CycleOut :=
  if inst.firstRun then
    let inst1 := { inst with firstRun := false }
    if inst.stateSid.isNone then ⟨.error (SMErr.machineErr noStateMsg), inst1, []⟩
    else if reg.transIdx.isEmpty then
      ⟨.error (SMErr.transErr noTransFoundClassMsg), inst1, []⟩
    else cycleCore sts cls reg condV cbOk inst1
  else cycleCore sts cls reg condV cbOk inst

/-- The properties defined on the base class `StateMachine` (lines 149-167:
`is_initialized`, `state`, `states`, `transitions`; the class-level ones are
modelled like the plain property `state`, their intended reading under the
`classmethod`/`property` stacking of the source's Python version). -/
def basePropNames : List String := ["state", "states", "transitions", "is_initialized"]

/-- The plain methods reachable on the base class `StateMachine`. -/
def baseMethodNames : List String :=
  ["cycle", "callbacks_init", "__init__", "__getitem__", "__str__", "__repr__"]

/-- The value a base-class property yields when read on an instance:
`state` returns `self._state`, `states` and `transitions` return the shared
class-level containers, `is_initialized` the initialization flag. -/
def basePropVal (cls : MachineCls) (reg : Registry) (inst : Inst) (n : String) : PyVal :=
  if n = "state" then
    match inst.stateSid with
    | some sid => .vState sid
    | none => .vNone
  else if n = "states" then .vSet reg.statesSet
  else if n = "transitions" then .vIdx reg.transIdx
  else .vBool (isInitialized cls reg)

/-- The subclass's own class attributes: its declared `State`/`Transition`
members and its methods (these shadow same-named base-class attributes, in
method-resolution order). -/
def clsOwnAttr (cls : MachineCls) (n : String) : Option PyVal :=
  match alookup cls.members n with
  | some (.stateM sid) => some (.vState sid)
  | some (.transM tid) => some (.vTrans tid)
  | none => if strElem n cls.methods then some (.vMethod n) else none

/-- Class attributes inherited from `StateMachine`: its methods and its
class variables `_states`, `_transitions` and `_initial_state` (for the
last, the subclass attribute assigned by the build shadows the base's
`None`). -/
def baseClassAttr (cls : MachineCls) (reg : Registry) (n : String) : Option PyVal :=
  if strElem n baseMethodNames then some (.vMethod n)
  else if n = "_states" then some (.vSet reg.statesSet)
  else if n = "_transitions" then some (.vIdx reg.transIdx)
  else if n = "_initial_state" then
    some (match alookup reg.initMap cls.cname with
          | some sid => .vState sid
          | none => .vNone)
  else none

/-- `getattr(self, n, None)`, following Python's attribute resolution: a
base-class property applies first unless the subclass shadows the name with
an own class attribute; then the instance `__dict__` (`_state` and
`_first_run` from the dedicated fields, the rest from `attrs`); then the
subclass's own class attributes; then the attributes inherited from
`StateMachine`; else `None`.  Attributes Python would further inherit from
`object` itself (e.g. `__class__`) are outside the model. -/
def instGetattr (cls : MachineCls) (reg : Registry) (inst : Inst) (n : String) : PyVal :=
  if strElem n basePropNames && (clsOwnAttr cls n).isNone then
    basePropVal cls reg inst n
  else if n = "_state" then
    match inst.stateSid with
    | some sid => .vState sid
    | none => .vNone
  else if n = "_first_run" then .vBool inst.firstRun
  else
    match alookup inst.attrs n with
    | some v => v
    | none =>
      match clsOwnAttr cls n with
      | some v => v
      | none =>
        match baseClassAttr cls reg n with
        | some v => v
        | none => .vNone

/-- `StateMachine.__getitem__` (lines 294-300): look the item up with a
`None` default, but for keys starting with `"is_"` return the comparison of
the key against `"is_" + self._state.name` instead (reading `.name` on a
`None` state would raise an `AttributeError`). -/
def getitem (sts : Nat → StateObj) (cls : MachineCls) (reg : Registry) (inst : Inst)
    (item : String) : Except SMErr PyVal :=
  let val := instGetattr cls reg inst item
  if strStartsWith item "is_" then
    match inst.stateSid with
    | none => .error SMErr.attrErr
    | some sid => .ok (.vBool (decide (item = "is_" ++ (sts sid).name)))
  else .ok val

/-- The condition events of a trace. -/
def condEvents : List Ev → List Ev :=
  List.filter (fun e => match e with | .condEval _ _ => true | _ => false)

/-- The callback method names of a trace, in invocation order. -/
def cbNames : List Ev → List String :=
  List.filterMap (fun e => match e with | .cbRun n => some n | _ => none)

/-- The transition-member ids declared from a given source state, in
declaration order, skipping underscore members (the order in which
`callbacks_init` appends to the outgoing index). -/
def declTransF (st1 : Nat → Nat) (ms : List (String × MemberVal)) (sid : Nat) : List Nat :=
  ms.filterMap (fun p =>
    match p.2 with
    | .transM tid => if !strStartsWith p.1 "_" && st1 tid == sid then some tid else none
    | .stateM _ => none)

/-- The method name a transition's condition resolves through (`trans.cond`,
defaulting the absent case). -/
def condName (reg : Registry) (tid : Nat) : String :=
  ((reg.transStore tid).cond).getD ""

/-- A transition object correctly installed in the outgoing index under a
source state: its `state1` is that state, its condition resolves on the
class, and its `callbacks` attribute holds its five-stage pipeline. -/
def goodT (sts : Nat → StateObj) (cls : MachineCls) (reg : Registry) (sid tid : Nat) : Prop :=
  (reg.transStore tid).state1 = sid ∧
  (∃ c, (reg.transStore tid).cond = some c ∧ clsHasAttrB cls c = true) ∧
  (reg.transStore tid).callbacks = fiveStage sts cls (reg.transStore tid)

/-- Every transition in the shared outgoing index is correctly installed. -/
def InvR (sts : Nat → StateObj) (cls : MachineCls) (reg : Registry) : Prop :=
  ∀ sid tid, tid ∈ ddGet reg.transIdx sid → goodT sts cls reg sid tid

deriving instance DecidableEq for Except

/-! ## Concrete machine types used as inputs -/

/-- A condition oracle that is always truthy. -/
def condTrue : String → Nat → Bool := fun _ _ => true

/-- A callback oracle under which no callback raises. -/
def cbAllOk : String → Bool := fun _ => true

/-- The instance attributes `__init__` assigns for a construction
`Klass(name)` with `desc` and `model` left at their `None` defaults. -/
def defAttrs (name : String) : List (String × PyVal) :=
  [("_name", .vStr name), ("_desc", .vNone), ("_model", .vNone)]

/-- States of machine `M1`: `a1` (initial), `a2` (final). -/
def sts1 : Nat → StateObj := fun n =>
  if n = 0 then ⟨"a1", true, false⟩ else ⟨"a2", false, true⟩

/-- Machine `M1`: one transition `trans1 : a1 → a2` guarded by the method
`cond_true`. -/
def cls1 : MachineCls :=
  ⟨"M1", [("state_a1", .stateM 0), ("state_a2", .stateM 1), ("trans1", .transM 0)],
   ["cond_true"]⟩

def reg10 : Registry := ⟨[], [], [], fun _ => ⟨none, 0, 1, some "cond_true", []⟩⟩

def reg11 : Registry := (construct sts1 cls1 reg10 "m1" .vNone .vNone).1

def inst1 : Inst := ⟨"M1", some 0, true, defAttrs "m1"⟩

/-- States for machine types `MA` (`a1` initial, `a2` final) and `MB`
(`b1` initial, `b2` final). -/
def sts2 : Nat → StateObj := fun n =>
  if n = 0 then ⟨"a1", true, false⟩
  else if n = 1 then ⟨"a2", false, true⟩
  else if n = 2 then ⟨"b1", true, false⟩
  else ⟨"b2", false, true⟩

def store2 : Nat → TransObj := fun n =>
  if n = 0 then ⟨none, 0, 1, some "ca", []⟩ else ⟨none, 2, 3, some "cb", []⟩

def clsA : MachineCls :=
  ⟨"MA", [("a1", .stateM 0), ("a2", .stateM 1), ("ta", .transM 0)], ["ca"]⟩

def clsB : MachineCls :=
  ⟨"MB", [("b1", .stateM 2), ("b2", .stateM 3), ("tb", .transM 1)], ["cb"]⟩

def reg20 : Registry := ⟨[], [], [], store2⟩

/-- The registry after the model of `MA` has been built. -/
def regA : Registry := (construct sts2 clsA reg20 "ma" .vNone .vNone).1

/-- The registry after the model of `MB` has additionally been built. -/
def regB : Registry := (construct sts2 clsB regA "mb" .vNone .vNone).1

def instA : Inst := ⟨"MA", some 0, true, defAttrs "ma"⟩

/-- States of machine `M3`: `a1` (initial), `a2`; no state is final. -/
def sts3 : Nat → StateObj := fun n =>
  if n = 0 then ⟨"a1", true, false⟩ else ⟨"a2", false, false⟩

def cls3 : MachineCls :=
  ⟨"M3", [("a1", .stateM 0), ("a2", .stateM 1), ("t", .transM 0)], ["c"]⟩

def reg30 : Registry := ⟨[], [], [], fun _ => ⟨none, 0, 1, some "c", []⟩⟩

/-- Machine `M4`: well-formed states but a transition whose condition
`missing` resolves to no member. -/
def cls4 : MachineCls :=
  ⟨"M4", [("a1", .stateM 0), ("a2", .stateM 1), ("t", .transM 0)], []⟩

def reg40 : Registry := ⟨[], [], [], fun _ => ⟨none, 0, 1, some "missing", []⟩⟩

/-- The registry left behind by the failed model build of `M4`. -/
def reg41 : Registry := (construct sts1 cls4 reg40 "m4" .vNone .vNone).1

/-- Machine `M8`: two member names `m1`, `m2` bound to two distinct
`Transition` objects (ids 0 and 1) with identical `(source, target, name)`
triples — the store maps every id to the same record, so the two objects
carry equal fields while remaining distinct objects. -/
def cls8 : MachineCls :=
  ⟨"M8", [("a1", .stateM 0), ("a2", .stateM 1), ("m1", .transM 0), ("m2", .transM 1)],
   ["c"]⟩

def reg80 : Registry := ⟨[], [], [], fun _ => ⟨some "x", 0, 1, some "c", []⟩⟩

def reg81 : Registry := (callbacks_init sts1 cls8 reg80).1

/-- A registry whose outgoing index already holds transition object 0 under
source state 0 (used to exercise the identity-based duplicate check). -/
def regW : Registry := ⟨[], [(0, [0])], [], fun _ => ⟨some "x", 0, 1, some "c", []⟩⟩

/-- States of machine `M5`: `s1` (initial), `s2`, `s3` (final). -/
def sts5 : Nat → StateObj := fun n =>
  if n = 0 then ⟨"s1", true, false⟩
  else if n = 1 then ⟨"s2", false, false⟩
  else ⟨"s3", false, true⟩

def store5 : Nat → TransObj := fun n =>
  if n = 0 then ⟨none, 0, 1, some "c1", []⟩ else ⟨none, 0, 2, some "c2", []⟩

/-- Machine `M5`: two transitions out of `s1` — `t0 : s1 → s2` (condition
`c1`) declared first, `t1 : s1 → s3` (condition `c2`) declared second — and
all five lifecycle hooks of `t0` defined as methods. -/
def cls5 : MachineCls :=
  ⟨"M5",
   [("s1", .stateM 0), ("s2", .stateM 1), ("s3", .stateM 2),
    ("t0", .transM 0), ("t1", .transM 1)],
   ["c1", "c2", "before_t0", "on_exit_s1", "on_t0", "after_t0", "on_enter_s2"]⟩

def reg50 : Registry := ⟨[], [], [], store5⟩

def reg51 : Registry := (callbacks_init sts5 cls5 reg50).1

def inst5 : Inst := ⟨"M5", some 0, true, []⟩

/-- A callback oracle under which exactly the named callback raises. -/
def cbOkBut (bad : String) : String → Bool := fun cb => if cb = bad then false else true

/-- An `M1` instance carrying an instance attribute named `is_a2`. -/
def inst10 : Inst :=
  ⟨"M1", some 0, false, defAttrs "m" ++ [("is_a2", .vStr "shadow")]⟩

/-! ## C1: the return value of `cycle` -/

/-- C1.  The claim states that `cycle()` returns `true` when a transition
fires and `false` otherwise.  On machine `M1` the transition fires — the
current state moves from `a1` to `a2` — yet `cycle` returns Python `None`
(`Except.ok none`), not `True`; only the already-terminal case returns an
actual `False`.  The source tracks `did_transition` but never returns it. -/
theorem cycle_fires_but_returns_none :
    (construct sts1 cls1 reg10 "m1" PyVal.vNone PyVal.vNone).2 = Except.ok inst1 ∧
    (cycle sts1 cls1 reg11 condTrue cbAllOk inst1).res = Except.ok none ∧
    (cycle sts1 cls1 reg11 condTrue cbAllOk inst1).inst.stateSid = some 1 :=
  by decide

/-! ## C2: the model is not immutable across machine types -/

/-- C2.  The claim states that building a second machine type leaves the
first type's states set and outgoing-transition index unchanged.  In the
source, `_states` and `_transitions` are attributes of the base class
shared by every subclass, and `callbacks_init` clears and repopulates them:
after `MB` is built, `MA`'s outgoing index entry is gone, the shared states
set holds `MB`'s states only, and an `MA` instance can no longer cycle. -/
theorem second_build_clobbers_first_model :
    (construct sts2 clsA reg20 "ma" PyVal.vNone PyVal.vNone).2 = Except.ok instA ∧
    ddGet regA.transIdx 0 = [0] ∧ regA.statesSet = [0, 1] ∧
    (construct sts2 clsB regA "mb" PyVal.vNone PyVal.vNone).2
        = Except.ok ⟨"MB", some 2, true, defAttrs "mb"⟩ ∧
    ddGet regB.transIdx 0 = [] ∧ regB.statesSet = [2, 3] ∧
    (cycle sts2 clsA regB condTrue cbAllOk instA).res
      = Except.error (SMErr.transErr noTransFromStateMsg) :=
  by decide

/-! ## C3: a machine without final states builds successfully -/

/-- C3.  The claim states that a machine type declaring no final state
fails to build with a `StateDefinitionError`.  In the source,
`callbacks_init` counts final states into `final_states` but never checks
the count, so machine `M3` — no state of which is final — builds without
error and instances of it are constructed normally.  The repository's own
test `TestMissingFinalState` expects a `StateException` here. -/
theorem build_succeeds_without_final_state :
    (sts3 0).final = false ∧ (sts3 1).final = false ∧
    (callbacks_init sts3 cls3 reg30).2 = none ∧
    (construct sts3 cls3 reg30 "m3" PyVal.vNone PyVal.vNone).2
        = Except.ok ⟨"M3", some 0, true, defAttrs "m3"⟩ :=
  by decide

/-! ## C4: a failed build is silently reused -/

/-- C4.  The claim states that every construction attempt of a malformed
machine type fails with the same error.  For machine `M4` the first
construction fails with the unresolved-condition error, but the failed
build has already recorded `_initial_state`, which is exactly what
`is_initialized` tests — so the second construction skips the build and
silently succeeds, handing out an instance whose model has an empty
transition index. -/
theorem failed_build_then_silent_reuse :
    (construct sts1 cls4 reg40 "m4" PyVal.vNone PyVal.vNone).2
        = Except.error (SMErr.transErr condMissingMsg) ∧
    (construct sts1 cls4 reg41 "m4" PyVal.vNone PyVal.vNone).2
        = Except.ok ⟨"M4", some 0, true, defAttrs "m4"⟩ ∧
    ddGet reg41.transIdx 0 = [] :=
  by decide

/-! ## C8: duplicate transitions are compared by identity, not by triple -/

/-- C8 counterexample.  The claim states that two distinct `Transition`
objects with identical `(source, target, name)` make the build fail with a
duplicate-definition error.  Machine `M8` binds two distinct transition
objects (ids 0 and 1) with equal source, target and name, and the build
succeeds, appending both to the outgoing index: the duplicate check
`attrib in cls._transitions[attrib.state1]` compares by object identity. -/
theorem duplicate_triple_not_rejected :
    ((reg80.transStore 0).state1 = (reg80.transStore 1).state1 ∧
     (reg80.transStore 0).state2 = (reg80.transStore 1).state2 ∧
     (reg80.transStore 0).name = (reg80.transStore 1).name) ∧
    (callbacks_init sts1 cls8 reg80).2 = none ∧
    ddGet reg81.transIdx 0 = [0, 1] :=
  by decide

/-! ## Helper lemmas about the building blocks -/

@[simp] lemma defaultName_state1 (mn : String) (t : TransObj) :
    (defaultName mn t).state1 = t.state1 := by
  unfold defaultName; split <;> rfl

@[simp] lemma defaultName_state2 (mn : String) (t : TransObj) :
    (defaultName mn t).state2 = t.state2 := by
  unfold defaultName; split <;> rfl

@[simp] lemma defaultName_cond (mn : String) (t : TransObj) :
    (defaultName mn t).cond = t.cond := by
  unfold defaultName; split <;> rfl

@[simp] lemma setTrans_transIdx (reg : Registry) (tid : Nat) (t : TransObj) :
    (setTrans reg tid t).transIdx = reg.transIdx := rfl

@[simp] lemma setTrans_initMap (reg : Registry) (tid : Nat) (t : TransObj) :
    (setTrans reg tid t).initMap = reg.initMap := rfl

@[simp] lemma setTrans_statesSet (reg : Registry) (tid : Nat) (t : TransObj) :
    (setTrans reg tid t).statesSet = reg.statesSet := rfl

@[simp] lemma setTrans_store_self (reg : Registry) (tid : Nat) (t : TransObj) :
    (setTrans reg tid t).transStore tid = t := by
  simp [setTrans]

lemma setTrans_store_ne (reg : Registry) (tid : Nat) (t : TransObj) (tid' : Nat)
    (h : tid' ≠ tid) : (setTrans reg tid t).transStore tid' = reg.transStore tid' := by
  simp [setTrans, Function.update_noteq h]

@[simp] lemma fiveStage_callbacks_irrel (sts : Nat → StateObj) (cls : MachineCls)
    (t : TransObj) (x : List String) :
    fiveStage sts cls { t with callbacks := x } = fiveStage sts cls t := rfl

lemma alookup_aset_self {α β : Type} [DecidableEq α] (l : List (α × β)) (k : α) (v : β) :
    alookup (aset l k v) k = some v := by
  induction l with
  | nil => simp [aset, alookup]
  | cons p rest ih =>
    by_cases h : p.1 = k
    · simp [aset, h, alookup]
    · simpa [aset, h, alookup] using ih

lemma alookup_aset_ne {α β : Type} [DecidableEq α] (l : List (α × β)) (k : α) (v : β)
    (k' : α) (h : k' ≠ k) : alookup (aset l k v) k' = alookup l k' := by
  induction l with
  | nil => simp [aset, alookup, Ne.symm h]
  | cons p rest ih =>
    by_cases hp : p.1 = k
    · subst hp
      simp [aset, alookup, Ne.symm h, h, ih]
    · by_cases hp' : p.1 = k'
      · simp [aset, hp, alookup, hp', h]
      · simp [aset, hp, alookup, hp', ih]

lemma ddGet_ddAppend_self (idx : List (Nat × List Nat)) (k tid : Nat) :
    ddGet (ddAppend idx k tid) k = ddGet idx k ++ [tid] := by
  simp [ddGet, ddAppend, alookup_aset_self]

lemma ddGet_ddAppend_ne (idx : List (Nat × List Nat)) (k tid k' : Nat) (h : k' ≠ k) :
    ddGet (ddAppend idx k tid) k' = ddGet idx k' := by
  simp [ddGet, ddAppend, alookup_aset_ne _ _ _ _ h]

lemma ddGet_eq_some (idx : List (Nat × List Nat)) (k : Nat) (l : List Nat)
    (h : ddGet idx k = l) (hne : l ≠ []) : alookup idx k = some l := by
  cases ha : alookup idx k with
  | none =>
    exfalso
    apply hne
    rw [← h, ddGet, ha]
    rfl
  | some l' =>
    rw [← h, ddGet, ha]
    rfl

/-! ## Lemmas about single-member processing -/

lemma procState_transIdx (sts : Nat → StateObj) (cls : MachineCls) (reg : Registry)
    (fc sid : Nat) : (procState sts cls reg fc sid).1.transIdx = reg.transIdx := by
  unfold procState
  dsimp only
  split_ifs <;> rfl

lemma procState_transStore (sts : Nat → StateObj) (cls : MachineCls) (reg : Registry)
    (fc sid : Nat) : (procState sts cls reg fc sid).1.transStore = reg.transStore := by
  unfold procState
  dsimp only
  split_ifs <;> rfl

lemma procTrans_store_ne (sts : Nat → StateObj) (cls : MachineCls) (reg : Registry)
    (fc : Nat) (mn : String) (tid tid' : Nat) (h : tid' ≠ tid) :
    (procTrans sts cls reg fc mn tid).1.transStore tid' = reg.transStore tid' := by
  unfold procTrans
  dsimp only
  rcases hc : (defaultName mn (reg.transStore tid)).cond with _ | c
  · dsimp only
    exact setTrans_store_ne _ _ _ _ h
  · dsimp only
    split_ifs <;>
      simp [setTrans, Function.update_noteq h]

lemma procTrans_store_self_fields (sts : Nat → StateObj) (cls : MachineCls)
    (reg : Registry) (fc : Nat) (mn : String) (tid : Nat) :
    ((procTrans sts cls reg fc mn tid).1.transStore tid).state1
        = (reg.transStore tid).state1 ∧
    ((procTrans sts cls reg fc mn tid).1.transStore tid).state2
        = (reg.transStore tid).state2 ∧
    ((procTrans sts cls reg fc mn tid).1.transStore tid).cond
        = (reg.transStore tid).cond := by
  unfold procTrans
  dsimp only
  rcases hc : (defaultName mn (reg.transStore tid)).cond with _ | c
  · dsimp only
    simp [setTrans]
  · dsimp only
    split_ifs <;>
      simp [setTrans, ← hc]

lemma procMember_store_fields (sts : Nat → StateObj) (cls : MachineCls) (reg : Registry)
    (fc : Nat) (mn : String) (mv : MemberVal) (u : Nat) :
    ((procMember sts cls reg fc mn mv).1.transStore u).state1
        = (reg.transStore u).state1 ∧
    ((procMember sts cls reg fc mn mv).1.transStore u).state2
        = (reg.transStore u).state2 ∧
    ((procMember sts cls reg fc mn mv).1.transStore u).cond
        = (reg.transStore u).cond := by
  cases mv with
  | stateM sid => rw [procMember, procState_transStore]; exact ⟨rfl, rfl, rfl⟩
  | transM tid =>
    by_cases h : u = tid
    · subst h
      exact procTrans_store_self_fields sts cls reg fc mn u
    · rw [procMember, procTrans_store_ne sts cls reg fc mn tid u h]
      exact ⟨rfl, rfl, rfl⟩

lemma procTrans_success (sts : Nat → StateObj) (cls : MachineCls) (reg : Registry)
    (fc : Nat) (mn : String) (tid : Nat)
    (h : (procTrans sts cls reg fc mn tid).2.2 = none) :
    ∃ c, (reg.transStore tid).cond = some c ∧ clsHasAttrB cls c = true ∧
      tid ∉ ddGet reg.transIdx ((reg.transStore tid).state1) ∧
      (procTrans sts cls reg fc mn tid).1.transIdx
        = ddAppend reg.transIdx ((reg.transStore tid).state1) tid ∧
      (procTrans sts cls reg fc mn tid).1.transStore tid
        = { defaultName mn (reg.transStore tid) with
            callbacks := fiveStage sts cls (defaultName mn (reg.transStore tid)) } := by
  unfold procTrans at h ⊢
  dsimp only at h ⊢
  simp only [setTrans_transIdx, defaultName_state1] at h ⊢
  rcases hc : (defaultName mn (reg.transStore tid)).cond with _ | c
  · rw [hc] at h
    simp at h
  · rw [hc] at h
    dsimp only at h
    by_cases h1 : clsHasAttrB cls c = true
    · by_cases h2 : tid ∈ ddGet reg.transIdx ((reg.transStore tid).state1)
      · rw [if_pos h1, if_pos h2] at h
        simp at h
      · refine ⟨c, by rw [← hc]; simp, h1, h2, ?_, ?_⟩
        · dsimp only
          rw [if_pos h1, if_neg h2]
        · dsimp only
          rw [if_pos h1, if_neg h2]
          simp [setTrans, hc]
    · rw [if_neg h1] at h
      simp at h

lemma procState_success_initMap (sts : Nat → StateObj) (cls : MachineCls)
    (reg : Registry) (fc sid : Nat) :
    (procState sts cls reg fc sid).1.initMap = reg.initMap ∨
    (procState sts cls reg fc sid).1.initMap = aset reg.initMap cls.cname sid := by
  unfold procState
  dsimp only
  split_ifs <;> simp

/-! ## Lemmas about the member loop -/

lemma declTransF_congr (f g : Nat → Nat) (ms : List (String × MemberVal)) (sid : Nat)
    (h : ∀ u, f u = g u) : declTransF f ms sid = declTransF g ms sid := by
  rw [funext h]

lemma declTransF_nil (f : Nat → Nat) (sid : Nat) : declTransF f [] sid = [] := rfl

lemma declTransF_cons_underscore (f : Nat → Nat) (mn : String) (mv : MemberVal)
    (rest : List (String × MemberVal)) (sid : Nat) (h : strStartsWith mn "_" = true) :
    declTransF f ((mn, mv) :: rest) sid = declTransF f rest sid := by
  cases mv <;> simp [declTransF, h]

lemma declTransF_cons_state (f : Nat → Nat) (mn : String) (s : Nat)
    (rest : List (String × MemberVal)) (sid : Nat) :
    declTransF f ((mn, .stateM s) :: rest) sid = declTransF f rest sid := by
  simp [declTransF]

lemma declTransF_cons_trans (f : Nat → Nat) (mn : String) (tid : Nat)
    (rest : List (String × MemberVal)) (sid : Nat) (h : strStartsWith mn "_" = false) :
    declTransF f ((mn, .transM tid) :: rest) sid
      = if f tid = sid then tid :: declTransF f rest sid else declTransF f rest sid := by
  by_cases hf : f tid = sid <;> simp [declTransF, h, hf]

lemma procAll_store_fields (sts : Nat → StateObj) (cls : MachineCls)
    (ms : List (String × MemberVal)) : ∀ (reg : Registry) (fc u : Nat),
    (((procAll sts cls reg fc ms).1.transStore u).state1 = (reg.transStore u).state1) ∧
    (((procAll sts cls reg fc ms).1.transStore u).state2 = (reg.transStore u).state2) ∧
    (((procAll sts cls reg fc ms).1.transStore u).cond = (reg.transStore u).cond) := by
  induction ms with
  | nil => intro reg fc u; exact ⟨rfl, rfl, rfl⟩
  | cons m rest ih =>
    intro reg fc u
    rcases m with ⟨mn, mv⟩
    rw [procAll]
    by_cases hu : strStartsWith mn "_" = true
    · rw [if_pos hu]
      exact ih reg fc u
    · rw [if_neg hu]
      have hf := procMember_store_fields sts cls reg fc mn mv u
      rcases hpm : procMember sts cls reg fc mn mv with ⟨reg1, fc1, e⟩
      rw [hpm] at hf
      dsimp only at hf
      cases e with
      | none =>
        dsimp only
        have hrec := ih reg1 fc1 u
        exact ⟨hrec.1.trans hf.1, hrec.2.1.trans hf.2.1, hrec.2.2.trans hf.2.2⟩
      | some e' =>
        dsimp only
        exact hf

lemma procAll_order (sts : Nat → StateObj) (cls : MachineCls)
    (ms : List (String × MemberVal)) : ∀ (reg : Registry) (fc : Nat),
    (procAll sts cls reg fc ms).2.2 = none →
    ∀ sid, ddGet (procAll sts cls reg fc ms).1.transIdx sid
        = ddGet reg.transIdx sid
          ++ declTransF (fun u => (reg.transStore u).state1) ms sid := by
  induction ms with
  | nil => intro reg fc _ sid; simp [procAll, declTransF_nil]
  | cons m rest ih =>
    intro reg fc hs sid
    rcases m with ⟨mn, mv⟩
    rw [procAll] at hs ⊢
    by_cases hu : strStartsWith mn "_" = true
    · rw [if_pos hu] at hs ⊢
      rw [declTransF_cons_underscore _ _ _ _ _ hu]
      exact ih reg fc hs sid
    · rw [if_neg hu] at hs ⊢
      have hff : strStartsWith mn "_" = false := by
        simpa using hu
      cases mv with
      | stateM s =>
        have hti := procState_transIdx sts cls reg fc s
        have hts := procState_transStore sts cls reg fc s
        rw [procMember] at hs ⊢
        rcases hpm : procState sts cls reg fc s with ⟨reg1, fc1, e⟩
        rw [hpm] at hs hti hts
        dsimp only at hs hti hts ⊢
        cases e with
        | none =>
          dsimp only at hs ⊢
          rw [declTransF_cons_state]
          rw [ih reg1 fc1 hs sid, hti, hts]
        | some e' => exact absurd hs (by simp)
      | transM tid =>
        rw [procMember] at hs ⊢
        have hstf : ∀ u, ((procTrans sts cls reg fc mn tid).1.transStore u).state1
            = (reg.transStore u).state1 := by
          intro u
          by_cases hut : u = tid
          · subst hut; exact (procTrans_store_self_fields sts cls reg fc mn u).1
          · rw [procTrans_store_ne sts cls reg fc mn tid u hut]
        have hsucc := procTrans_success sts cls reg fc mn tid
        rcases hpm : procTrans sts cls reg fc mn tid with ⟨reg1, fc1, e⟩
        rw [hpm] at hs hstf hsucc
        dsimp only at hs hstf hsucc ⊢
        cases e with
        | some e' => exact absurd hs (by simp)
        | none =>
          dsimp only at hs ⊢
          obtain ⟨c, _, _, _, hidx, _⟩ := hsucc rfl
          rw [declTransF_cons_trans _ _ _ _ _ hff]
          have hrec := ih reg1 fc1 hs sid
          rw [hrec, hidx]
          rw [declTransF_congr (fun u => (reg1.transStore u).state1)
                (fun u => (reg.transStore u).state1) rest sid hstf]
          by_cases hsid : (reg.transStore tid).state1 = sid
          · rw [if_pos hsid, ← hsid, ddGet_ddAppend_self]
            simp
          · rw [if_neg hsid, ddGet_ddAppend_ne _ _ _ _ (fun hh => hsid hh.symm)]

lemma goodT_of_store_eq (sts : Nat → StateObj) (cls : MachineCls) (reg reg' : Registry)
    (sid tid : Nat) (h : reg'.transStore tid = reg.transStore tid)
    (hg : goodT sts cls reg sid tid) : goodT sts cls reg' sid tid := by
  unfold goodT at hg ⊢
  rw [h]
  exact hg

lemma procTrans_inv (sts : Nat → StateObj) (cls : MachineCls) (reg : Registry)
    (fc : Nat) (mn : String) (tid : Nat) (hInv : InvR sts cls reg)
    (hs : (procTrans sts cls reg fc mn tid).2.2 = none) :
    InvR sts cls (procTrans sts cls reg fc mn tid).1 := by
  obtain ⟨c, hcond, hattr, hnotin, hidx, hstore⟩ :=
    procTrans_success sts cls reg fc mn tid hs
  intro sid tid' hmem
  rw [hidx] at hmem
  by_cases hsid : sid = (reg.transStore tid).state1
  · subst hsid
    rw [ddGet_ddAppend_self] at hmem
    rcases List.mem_append.1 hmem with hold | hnew
    · have hne : tid' ≠ tid := by
        intro hh
        subst hh
        exact hnotin hold
      exact goodT_of_store_eq sts cls reg _ _ tid'
        (procTrans_store_ne sts cls reg fc mn tid tid' hne) (hInv _ tid' hold)
    · have htt : tid' = tid := by simpa using hnew
      subst htt
      unfold goodT
      rw [hstore]
      refine ⟨by simp, ⟨c, by simpa using hcond, hattr⟩, ?_⟩
      simp [fiveStage, stageList]
  · rw [ddGet_ddAppend_ne _ _ _ _ hsid] at hmem
    have hg := hInv sid tid' hmem
    have hne : tid' ≠ tid := by
      intro hh
      subst hh
      exact hsid hg.1.symm
    exact goodT_of_store_eq sts cls reg _ _ tid'
      (procTrans_store_ne sts cls reg fc mn tid tid' hne) hg

lemma procMember_inv (sts : Nat → StateObj) (cls : MachineCls) (reg : Registry)
    (fc : Nat) (mn : String) (mv : MemberVal) (hInv : InvR sts cls reg)
    (hs : (procMember sts cls reg fc mn mv).2.2 = none) :
    InvR sts cls (procMember sts cls reg fc mn mv).1 := by
  cases mv with
  | stateM s =>
    intro sid tid' hmem
    rw [procMember] at hmem ⊢
    rw [procState_transIdx] at hmem
    exact goodT_of_store_eq sts cls reg _ _ tid'
      (by rw [procState_transStore]) (hInv sid tid' hmem)
  | transM tid =>
    rw [procMember] at hs ⊢
    exact procTrans_inv sts cls reg fc mn tid hInv hs

lemma procAll_inv (sts : Nat → StateObj) (cls : MachineCls)
    (ms : List (String × MemberVal)) : ∀ (reg : Registry) (fc : Nat),
    InvR sts cls reg → (procAll sts cls reg fc ms).2.2 = none →
    InvR sts cls (procAll sts cls reg fc ms).1 := by
  induction ms with
  | nil => intro reg fc hInv _; exact hInv
  | cons m rest ih =>
    intro reg fc hInv hs
    rcases m with ⟨mn, mv⟩
    rw [procAll] at hs ⊢
    by_cases hu : strStartsWith mn "_" = true
    · rw [if_pos hu] at hs ⊢
      exact ih reg fc hInv hs
    · rw [if_neg hu] at hs ⊢
      have hmi := procMember_inv sts cls reg fc mn mv hInv
      rcases hpm : procMember sts cls reg fc mn mv with ⟨reg1, fc1, e⟩
      rw [hpm] at hs hmi
      dsimp only at hs hmi ⊢
      cases e with
      | none =>
        dsimp only at hs ⊢
        exact ih reg1 fc1 (hmi rfl) hs
      | some e' => exact absurd hs (by simp)

/-! ## Consequences of a successful model build -/

lemma callbacks_init_fst (sts : Nat → StateObj) (cls : MachineCls) (reg : Registry) :
    (callbacks_init sts cls reg).1
      = (procAll sts cls (clearShared cls reg) 0 cls.members).1 := by
  unfold callbacks_init
  dsimp only
  rcases hp : procAll sts cls (clearShared cls reg) 0 cls.members with ⟨reg2, fc2, e⟩
  try rw [hp]
  cases e with
  | none =>
    dsimp only
    split_ifs <;> rfl
  | some e' => rfl

lemma callbacks_init_success_procAll (sts : Nat → StateObj) (cls : MachineCls)
    (reg : Registry) (h : (callbacks_init sts cls reg).2 = none) :
    (procAll sts cls (clearShared cls reg) 0 cls.members).2.2 = none := by
  unfold callbacks_init at h
  dsimp only at h
  rcases hp : procAll sts cls (clearShared cls reg) 0 cls.members with ⟨reg2, fc2, e⟩
  try rw [hp] at h
  try rw [hp]
  cases e with
  | none => rfl
  | some e' =>
    dsimp only at h
    exact absurd h (by simp)

lemma build_success_transIdx_ne (sts : Nat → StateObj) (cls : MachineCls)
    (reg : Registry) (h : (callbacks_init sts cls reg).2 = none) :
    (callbacks_init sts cls reg).1.transIdx.isEmpty = false := by
  unfold callbacks_init at h ⊢
  dsimp only at h ⊢
  rcases hp : procAll sts cls (clearShared cls reg) 0 cls.members with ⟨reg2, fc2, e⟩
  try rw [hp] at h
  try rw [hp]
  cases e with
  | some e' =>
    dsimp only at h
    exact absurd h (by simp)
  | none =>
    dsimp only at h ⊢
    by_cases h1 : (alookup reg2.initMap cls.cname).isNone = true
    · rw [if_pos h1] at h
      exact absurd h (by simp)
    · rw [if_neg h1] at h ⊢
      by_cases h2 : reg2.transIdx.isEmpty = true
      · rw [if_pos h2] at h
        exact absurd h (by simp)
      · rw [if_neg h2] at h ⊢
        simpa using h2

lemma build_success_order (sts : Nat → StateObj) (cls : MachineCls) (reg : Registry)
    (h : (callbacks_init sts cls reg).2 = none) :
    ∀ sid, ddGet (callbacks_init sts cls reg).1.transIdx sid
        = declTransF (fun u => ((callbacks_init sts cls reg).1.transStore u).state1)
            cls.members sid := by
  intro sid
  have hfst := callbacks_init_fst sts cls reg
  have hpa := callbacks_init_success_procAll sts cls reg h
  have hord := procAll_order sts cls cls.members (clearShared cls reg) 0 hpa sid
  have hclear : ddGet (clearShared cls reg).transIdx sid = [] := rfl
  rw [hfst, hord, hclear, List.nil_append]
  refine declTransF_congr _ _ _ _ ?_
  intro u
  have hsf := procAll_store_fields sts cls cls.members (clearShared cls reg) 0 u
  exact hsf.1.symm

lemma build_success_inv (sts : Nat → StateObj) (cls : MachineCls) (reg : Registry)
    (h : (callbacks_init sts cls reg).2 = none) :
    InvR sts cls (callbacks_init sts cls reg).1 := by
  have hfst := callbacks_init_fst sts cls reg
  have hpa := callbacks_init_success_procAll sts cls reg h
  rw [hfst]
  refine procAll_inv sts cls cls.members (clearShared cls reg) 0 ?_ hpa
  intro sid tid hmem
  exact absurd hmem (by simp [ddGet, alookup, clearShared])

/-! ## Lemmas about the stepping algorithm -/

lemma runCallbacks_ok (cbOk : String → Bool) (l : List String)
    (h : ∀ cb ∈ l, cbOk cb = true) :
    runCallbacks cbOk l = (l.map Ev.cbRun, none) := by
  induction l with
  | nil => rfl
  | cons cb rest ih =>
    rw [runCallbacks, if_pos (h cb (by simp))]
    rw [ih (fun x hx => h x (by simp [hx]))]
    simp

lemma runCallbacks_raise (cbOk : String → Bool) (l1 : List String) (bad : String)
    (l2 : List String) (h1 : ∀ cb ∈ l1, cbOk cb = true) (h2 : cbOk bad = false) :
    runCallbacks cbOk (l1 ++ bad :: l2)
      = (l1.map Ev.cbRun ++ [Ev.cbRun bad], some (SMErr.userRaise bad)) := by
  induction l1 with
  | nil =>
    rw [List.nil_append, runCallbacks, if_neg (by simp [h2])]
    rfl
  | cons cb rest ih =>
    rw [List.cons_append, runCallbacks, if_pos (h1 cb (by simp))]
    rw [ih (fun x hx => h1 x (by simp [hx]))]
    simp

lemma fireLoop_skip (sts : Nat → StateObj) (cls : MachineCls) (reg : Registry)
    (condV : String → Nat → Bool) (cbOk : String → Bool) (inst : Inst)
    (pre rest : List Nat)
    (h : ∀ u ∈ pre, ∃ c, (reg.transStore u).cond = some c ∧
          clsHasAttrB cls c = true ∧ condV c u = false) :
    fireLoop sts cls reg condV cbOk inst (pre ++ rest)
      = ⟨(fireLoop sts cls reg condV cbOk inst rest).res,
         (fireLoop sts cls reg condV cbOk inst rest).inst,
         pre.map (fun u => Ev.condEval (condName reg u) u)
           ++ (fireLoop sts cls reg condV cbOk inst rest).evs⟩ := by
  induction pre with
  | nil => simp
  | cons u pre' ih =>
    obtain ⟨c, hc, hattr, hcv⟩ := h u (by simp)
    rw [List.cons_append, fireLoop]
    rw [hc]
    dsimp only
    rw [if_pos hattr, if_neg (by simp [hcv])]
    rw [ih (fun x hx => h x (by simp [hx]))]
    simp [condName, hc]

lemma fireLoop_fire_ok (sts : Nat → StateObj) (cls : MachineCls) (reg : Registry)
    (condV : String → Nat → Bool) (cbOk : String → Bool) (inst : Inst)
    (t : Nat) (rest : List Nat) (c : String)
    (hc : (reg.transStore t).cond = some c) (hattr : clsHasAttrB cls c = true)
    (hcv : condV c t = true)
    (hcb : ∀ cb ∈ (reg.transStore t).callbacks, cbOk cb = true) :
    fireLoop sts cls reg condV cbOk inst (t :: rest)
      = ⟨.ok none, { inst with stateSid := some ((reg.transStore t).state2) },
         Ev.condEval c t :: (reg.transStore t).callbacks.map Ev.cbRun⟩ := by
  rw [fireLoop, hc]
  dsimp only
  rw [if_pos hattr, if_pos hcv, runCallbacks_ok cbOk _ hcb]

lemma fireLoop_fire_raise (sts : Nat → StateObj) (cls : MachineCls) (reg : Registry)
    (condV : String → Nat → Bool) (cbOk : String → Bool) (inst : Inst)
    (t : Nat) (rest : List Nat) (c : String) (l1 : List String) (bad : String)
    (l2 : List String)
    (hc : (reg.transStore t).cond = some c) (hattr : clsHasAttrB cls c = true)
    (hcv : condV c t = true)
    (hsplit : (reg.transStore t).callbacks = l1 ++ bad :: l2)
    (hok : ∀ cb ∈ l1, cbOk cb = true) (hbad : cbOk bad = false) :
    fireLoop sts cls reg condV cbOk inst (t :: rest)
      = ⟨.error (SMErr.userRaise bad), inst,
         Ev.condEval c t :: (l1.map Ev.cbRun ++ [Ev.cbRun bad])⟩ := by
  rw [fireLoop, hc]
  dsimp only
  rw [if_pos hattr, if_pos hcv, hsplit, runCallbacks_raise cbOk l1 bad l2 hok hbad]

lemma cycleCore_to_fireLoop (sts : Nat → StateObj) (cls : MachineCls) (reg : Registry)
    (condV : String → Nat → Bool) (cbOk : String → Bool) (inst : Inst)
    (sid : Nat) (cands : List Nat)
    (hsid : inst.stateSid = some sid) (hfin : (sts sid).final = false)
    (hcands : alookup reg.transIdx sid = some cands) (hcne : cands ≠ []) :
    cycleCore sts cls reg condV cbOk inst
      = fireLoop sts cls reg condV cbOk inst cands := by
  unfold cycleCore
  rw [hsid]
  dsimp only
  rw [if_neg (by simp [hfin]), hcands]
  cases cands with
  | nil => exact absurd rfl hcne
  | cons a as => rfl

lemma inst_firstRun_eta (inst : Inst) (h : inst.firstRun = false) :
    ({ inst with firstRun := false } : Inst) = inst := by
  cases inst
  simp only at h
  rw [h]

lemma cycle_to_fireLoop (sts : Nat → StateObj) (cls : MachineCls) (reg : Registry)
    (condV : String → Nat → Bool) (cbOk : String → Bool) (inst : Inst)
    (sid : Nat) (cands : List Nat)
    (hsid : inst.stateSid = some sid) (hne : reg.transIdx.isEmpty = false)
    (hfin : (sts sid).final = false)
    (hcands : alookup reg.transIdx sid = some cands) (hcne : cands ≠ []) :
    cycle sts cls reg condV cbOk inst
      = fireLoop sts cls reg condV cbOk { inst with firstRun := false } cands := by
  unfold cycle
  by_cases hfr : inst.firstRun = true
  · rw [if_pos hfr]
    dsimp only
    rw [if_neg (by simp [hsid]), if_neg (by simp [hne])]
    exact cycleCore_to_fireLoop sts cls reg condV cbOk _ sid cands hsid hfin hcands hcne
  · rw [if_neg hfr]
    rw [inst_firstRun_eta inst (by simpa using hfr)]
    exact cycleCore_to_fireLoop sts cls reg condV cbOk _ sid cands hsid hfin hcands hcne

lemma condEvents_append (l1 l2 : List Ev) :
    condEvents (l1 ++ l2) = condEvents l1 ++ condEvents l2 := by
  simp [condEvents]

lemma condEvents_condEv_map (f : Nat → String) (l : List Nat) :
    condEvents (l.map (fun u => Ev.condEval (f u) u))
      = l.map (fun u => Ev.condEval (f u) u) := by
  induction l with
  | nil => rfl
  | cons a as ih => simp only [List.map_cons, condEvents, List.filter_cons_of_pos] at ih ⊢; simpa using ih

lemma condEvents_cbRun_map (l : List String) :
    condEvents (l.map Ev.cbRun) = [] := by
  induction l with
  | nil => rfl
  | cons a as ih => simpa [condEvents] using ih

lemma condEvents_cons_cond (m : String) (tid : Nat) (l : List Ev) :
    condEvents (Ev.condEval m tid :: l) = Ev.condEval m tid :: condEvents l := rfl

lemma cbNames_cons_cond (m : String) (tid : Nat) (l : List Ev) :
    cbNames (Ev.condEval m tid :: l) = cbNames l := rfl

lemma cbNames_cons_cb (n : String) (l : List Ev) :
    cbNames (Ev.cbRun n :: l) = n :: cbNames l := rfl

lemma cbNames_append (l1 l2 : List Ev) :
    cbNames (l1 ++ l2) = cbNames l1 ++ cbNames l2 := by
  simp [cbNames]

lemma cbNames_condEv_map (f : Nat → String) (l : List Nat) :
    cbNames (l.map (fun u => Ev.condEval (f u) u)) = [] := by
  induction l with
  | nil => rfl
  | cons a as ih => simpa [cbNames] using ih

lemma cbNames_cbRun_map (l : List String) :
    cbNames (l.map Ev.cbRun) = l := by
  induction l with
  | nil => rfl
  | cons a as ih => simp only [List.map_cons, cbNames, List.filterMap_cons] at ih ⊢; simpa using ih

lemma cycle_fire_shape (sts : Nat → StateObj) (cls : MachineCls) (reg0 reg : Registry)
    (condV : String → Nat → Bool) (cbOk : String → Bool) (inst : Inst)
    (sid t : Nat) (pre post : List Nat)
    (hreg : callbacks_init sts cls reg0 = (reg, none))
    (hsid : inst.stateSid = some sid)
    (hfin : (sts sid).final = false)
    (hdd : ddGet reg.transIdx sid = pre ++ t :: post)
    (hpre : ∀ u ∈ pre, condV (condName reg u) u = false)
    (ht : condV (condName reg t) t = true)
    (hcb : ∀ cb ∈ (reg.transStore t).callbacks, cbOk cb = true) :
    cycle sts cls reg condV cbOk inst
      = ⟨.ok none,
         { inst with firstRun := false, stateSid := some ((reg.transStore t).state2) },
         pre.map (fun u => Ev.condEval (condName reg u) u)
           ++ Ev.condEval (condName reg t) t
              :: (reg.transStore t).callbacks.map Ev.cbRun⟩ := by
  have h1 : (callbacks_init sts cls reg0).1 = reg := by rw [hreg]
  have h2 : (callbacks_init sts cls reg0).2 = none := by rw [hreg]
  have hInv : InvR sts cls reg := by
    have := build_success_inv sts cls reg0 h2
    rwa [h1] at this
  have hne : reg.transIdx.isEmpty = false := by
    have := build_success_transIdx_ne sts cls reg0 h2
    rwa [h1] at this
  have hal : alookup reg.transIdx sid = some (pre ++ t :: post) :=
    ddGet_eq_some _ _ _ hdd (by simp)
  have hcyc := cycle_to_fireLoop sts cls reg condV cbOk inst sid (pre ++ t :: post)
      hsid hne hfin hal (by simp)
  have htmem : t ∈ ddGet reg.transIdx sid := by
    rw [hdd]; exact List.mem_append_right _ (by simp)
  obtain ⟨hst1, ⟨ct, hct, hattrt⟩, hcbs⟩ := hInv sid t htmem
  have hcvt : condV ct t = true := by
    have hh := ht
    rw [condName, hct] at hh
    simpa using hh
  have hpre' : ∀ u ∈ pre, ∃ c, (reg.transStore u).cond = some c ∧
      clsHasAttrB cls c = true ∧ condV c u = false := by
    intro u hu
    have humem : u ∈ ddGet reg.transIdx sid := by
      rw [hdd]; exact List.mem_append_left _ hu
    obtain ⟨_, ⟨c, hc, hattr⟩, _⟩ := hInv sid u humem
    refine ⟨c, hc, hattr, ?_⟩
    have hh := hpre u hu
    rw [condName, hc] at hh
    simpa using hh
  rw [hcyc, fireLoop_skip sts cls reg condV cbOk _ pre (t :: post) hpre',
      fireLoop_fire_ok sts cls reg condV cbOk _ t post ct hct hattrt hcvt hcb]
  simp [condName, hct]

lemma cycle_fire_raise_shape (sts : Nat → StateObj) (cls : MachineCls)
    (reg0 reg : Registry) (condV : String → Nat → Bool) (cbOk : String → Bool)
    (inst : Inst) (sid t : Nat) (pre post : List Nat) (l1 : List String)
    (bad : String) (l2 : List String)
    (hreg : callbacks_init sts cls reg0 = (reg, none))
    (hsid : inst.stateSid = some sid)
    (hfin : (sts sid).final = false)
    (hdd : ddGet reg.transIdx sid = pre ++ t :: post)
    (hpre : ∀ u ∈ pre, condV (condName reg u) u = false)
    (ht : condV (condName reg t) t = true)
    (hsplit : (reg.transStore t).callbacks = l1 ++ bad :: l2)
    (hok : ∀ cb ∈ l1, cbOk cb = true) (hbad : cbOk bad = false) :
    cycle sts cls reg condV cbOk inst
      = ⟨.error (SMErr.userRaise bad), { inst with firstRun := false },
         pre.map (fun u => Ev.condEval (condName reg u) u)
           ++ Ev.condEval (condName reg t) t
              :: (l1.map Ev.cbRun ++ [Ev.cbRun bad])⟩ := by
  have h1 : (callbacks_init sts cls reg0).1 = reg := by rw [hreg]
  have h2 : (callbacks_init sts cls reg0).2 = none := by rw [hreg]
  have hInv : InvR sts cls reg := by
    have := build_success_inv sts cls reg0 h2
    rwa [h1] at this
  have hne : reg.transIdx.isEmpty = false := by
    have := build_success_transIdx_ne sts cls reg0 h2
    rwa [h1] at this
  have hal : alookup reg.transIdx sid = some (pre ++ t :: post) :=
    ddGet_eq_some _ _ _ hdd (by simp)
  have hcyc := cycle_to_fireLoop sts cls reg condV cbOk inst sid (pre ++ t :: post)
      hsid hne hfin hal (by simp)
  have htmem : t ∈ ddGet reg.transIdx sid := by
    rw [hdd]; exact List.mem_append_right _ (by simp)
  obtain ⟨hst1, ⟨ct, hct, hattrt⟩, hcbs⟩ := hInv sid t htmem
  have hcvt : condV ct t = true := by
    have hh := ht
    rw [condName, hct] at hh
    simpa using hh
  have hpre' : ∀ u ∈ pre, ∃ c, (reg.transStore u).cond = some c ∧
      clsHasAttrB cls c = true ∧ condV c u = false := by
    intro u hu
    have humem : u ∈ ddGet reg.transIdx sid := by
      rw [hdd]; exact List.mem_append_left _ hu
    obtain ⟨_, ⟨c, hc, hattr⟩, _⟩ := hInv sid u humem
    refine ⟨c, hc, hattr, ?_⟩
    have hh := hpre u hu
    rw [condName, hc] at hh
    simpa using hh
  rw [hcyc, fireLoop_skip sts cls reg condV cbOk _ pre (t :: post) hpre',
      fireLoop_fire_raise sts cls reg condV cbOk _ t post ct l1 bad l2
        hct hattrt hcvt hsplit hok hbad]
  simp [condName, hct]

/-! ## C5: declaration order and first-truthy selection -/

/-- C5.  For a machine whose model build succeeded, a `cycle` call whose
current state is not final and whose candidate list splits as
`pre ++ t :: post`, where every condition in `pre` is falsy, `t`'s condition
is truthy and some later candidate's condition is also truthy: the
candidate list is exactly the machine's transitions from that state in
declaration order; only `t` fires — the new current state is `t`'s target —
and the conditions evaluated are exactly those of `pre ++ [t]`, in order:
no condition declared after `t` is evaluated. -/
theorem cycle_first_declared_truthy_fires (sts : Nat → StateObj) (cls : MachineCls)
    (reg0 reg : Registry) (condV : String → Nat → Bool) (cbOk : String → Bool)
    (inst : Inst) (sid t : Nat) (pre post : List Nat)
    (hreg : callbacks_init sts cls reg0 = (reg, none))
    (hsid : inst.stateSid = some sid)
    (hfin : (sts sid).final = false)
    (hdd : ddGet reg.transIdx sid = pre ++ t :: post)
    (hpre : ∀ u ∈ pre, condV (condName reg u) u = false)
    (ht : condV (condName reg t) t = true)
    (hpost : ∃ u ∈ post, condV (condName reg u) u = true)
    (hcb : ∀ cb ∈ (reg.transStore t).callbacks, cbOk cb = true) :
    ddGet reg.transIdx sid
        = declTransF (fun u => (reg.transStore u).state1) cls.members sid ∧
    (cycle sts cls reg condV cbOk inst).inst.stateSid
        = some ((reg.transStore t).state2) ∧
    condEvents (cycle sts cls reg condV cbOk inst).evs
        = (pre ++ [t]).map (fun u => Ev.condEval (condName reg u) u) := by
  have h1 : (callbacks_init sts cls reg0).1 = reg := by rw [hreg]
  have h2 : (callbacks_init sts cls reg0).2 = none := by rw [hreg]
  have hshape := cycle_fire_shape sts cls reg0 reg condV cbOk inst sid t pre post
    hreg hsid hfin hdd hpre ht hcb
  refine ⟨?_, ?_, ?_⟩
  · have := build_success_order sts cls reg0 h2 sid
    rwa [h1] at this
  · rw [hshape]
  · rw [hshape]
    show condEvents _ = _
    rw [condEvents_append, condEvents_cons_cond, condEvents_condEv_map,
        condEvents_cbRun_map]
    simp

/-- C5 witness: machine `M5` at state `s1` with both `t0`'s and `t1`'s
conditions truthy — `t0` fires, the state moves to `s2`, and only `t0`'s
condition is evaluated. -/
theorem cycle_first_declared_truthy_fires_witness :
    (ddGet reg51.transIdx 0 = [] ++ 0 :: [1] ∧
     condTrue (condName reg51 0) 0 = true ∧
     (∃ u ∈ [1], condTrue (condName reg51 u) u = true)) ∧
    (ddGet reg51.transIdx 0
        = declTransF (fun u => (reg51.transStore u).state1) cls5.members 0 ∧
     (cycle sts5 cls5 reg51 condTrue cbAllOk inst5).inst.stateSid
        = some ((reg51.transStore 0).state2) ∧
     condEvents (cycle sts5 cls5 reg51 condTrue cbAllOk inst5).evs
        = ([] ++ [0]).map (fun u => Ev.condEval (condName reg51 u) u)) :=
  ⟨⟨by decide, rfl, ⟨1, by simp, rfl⟩⟩,
   cycle_first_declared_truthy_fires sts5 cls5 reg50 reg51 condTrue cbAllOk inst5
     0 0 [] [1] rfl rfl rfl (by decide) (by simp) rfl ⟨1, by simp, rfl⟩
     (fun cb _ => rfl)⟩

/-! ## C6: the callback pipeline of a fired transition -/

/-- C6.  For every transition that fires during a `cycle` on a successfully
built machine, the callbacks that run are exactly the machine's existing
members among `before_<t>`, `on_exit_<source>`, `on_<t>`, `after_<t>`,
`on_enter_<target>`, in exactly that five-stage order (`stageList`), with
non-existing stages skipped (`filter`), and no other hook runs during the
step. -/
theorem cycle_callback_pipeline_exact (sts : Nat → StateObj) (cls : MachineCls)
    (reg0 reg : Registry) (condV : String → Nat → Bool) (cbOk : String → Bool)
    (inst : Inst) (sid t : Nat) (pre post : List Nat)
    (hreg : callbacks_init sts cls reg0 = (reg, none))
    (hsid : inst.stateSid = some sid)
    (hfin : (sts sid).final = false)
    (hdd : ddGet reg.transIdx sid = pre ++ t :: post)
    (hpre : ∀ u ∈ pre, condV (condName reg u) u = false)
    (ht : condV (condName reg t) t = true)
    (hcb : ∀ cb ∈ (reg.transStore t).callbacks, cbOk cb = true) :
    cbNames (cycle sts cls reg condV cbOk inst).evs
      = (stageList sts (reg.transStore t)).filter (fun n => clsHasAttrB cls n) := by
  have h1 : (callbacks_init sts cls reg0).1 = reg := by rw [hreg]
  have h2 : (callbacks_init sts cls reg0).2 = none := by rw [hreg]
  have hInv : InvR sts cls reg := by
    have := build_success_inv sts cls reg0 h2
    rwa [h1] at this
  have htmem : t ∈ ddGet reg.transIdx sid := by
    rw [hdd]; exact List.mem_append_right _ (by simp)
  obtain ⟨_, _, hcbs⟩ := hInv sid t htmem
  have hshape := cycle_fire_shape sts cls reg0 reg condV cbOk inst sid t pre post
    hreg hsid hfin hdd hpre ht hcb
  rw [hshape]
  show cbNames _ = _
  rw [cbNames_append, cbNames_condEv_map, cbNames_cons_cond, cbNames_cbRun_map,
      List.nil_append, hcbs]
  rfl

/-- C6 witness: machine `M5`'s transition `t0` fires with all five hooks
defined, and exactly `before_t0`, `on_exit_s1`, `on_t0`, `after_t0`,
`on_enter_s2` run, in that order. -/
theorem cycle_callback_pipeline_exact_witness :
    ((stageList sts5 (reg51.transStore 0)).filter (fun n => clsHasAttrB cls5 n)
        = ["before_t0", "on_exit_s1", "on_t0", "after_t0", "on_enter_s2"] ∧
     ddGet reg51.transIdx 0 = [] ++ 0 :: [1]) ∧
    cbNames (cycle sts5 cls5 reg51 condTrue cbAllOk inst5).evs
      = (stageList sts5 (reg51.transStore 0)).filter (fun n => clsHasAttrB cls5 n) :=
  ⟨⟨by decide, by decide⟩,
   cycle_callback_pipeline_exact sts5 cls5 reg50 reg51 condTrue cbAllOk inst5
     0 0 [] [1] rfl rfl rfl (by decide) (by simp) rfl (fun cb _ => rfl)⟩

/-! ## C7: state commit is the pipeline's last step -/

/-- C7.  If a callback of the fired transition's pipeline raises, the
exception propagates out of `cycle` and the instance's current state is
unchanged: the state is assigned only after the whole pipeline has
completed. -/
theorem cycle_state_commit_after_pipeline (sts : Nat → StateObj) (cls : MachineCls)
    (reg0 reg : Registry) (condV : String → Nat → Bool) (cbOk : String → Bool)
    (inst : Inst) (sid t : Nat) (pre post : List Nat) (l1 : List String)
    (bad : String) (l2 : List String)
    (hreg : callbacks_init sts cls reg0 = (reg, none))
    (hsid : inst.stateSid = some sid)
    (hfin : (sts sid).final = false)
    (hdd : ddGet reg.transIdx sid = pre ++ t :: post)
    (hpre : ∀ u ∈ pre, condV (condName reg u) u = false)
    (ht : condV (condName reg t) t = true)
    (hsplit : (reg.transStore t).callbacks = l1 ++ bad :: l2)
    (hok : ∀ cb ∈ l1, cbOk cb = true) (hbad : cbOk bad = false) :
    (cycle sts cls reg condV cbOk inst).res = Except.error (SMErr.userRaise bad) ∧
    (cycle sts cls reg condV cbOk inst).inst.stateSid = inst.stateSid := by
  have hshape := cycle_fire_raise_shape sts cls reg0 reg condV cbOk inst sid t
    pre post l1 bad l2 hreg hsid hfin hdd hpre ht hsplit hok hbad
  rw [hshape]
  exact ⟨rfl, rfl⟩

/-- C7 witness: on machine `M5`, the third hook `on_t0` raises; `cycle`
propagates the exception and the state stays at `s1`. -/
theorem cycle_state_commit_after_pipeline_witness :
    ((reg51.transStore 0).callbacks
        = ["before_t0", "on_exit_s1"] ++ "on_t0" :: ["after_t0", "on_enter_s2"] ∧
     cbOkBut "on_t0" "on_t0" = false) ∧
    ((cycle sts5 cls5 reg51 condTrue (cbOkBut "on_t0") inst5).res
        = Except.error (SMErr.userRaise "on_t0") ∧
     (cycle sts5 cls5 reg51 condTrue (cbOkBut "on_t0") inst5).inst.stateSid
        = inst5.stateSid) :=
  ⟨⟨by decide, by decide⟩,
   cycle_state_commit_after_pipeline sts5 cls5 reg50 reg51 condTrue (cbOkBut "on_t0")
     inst5 0 0 [] [1] ["before_t0", "on_exit_s1"] "on_t0" ["after_t0", "on_enter_s2"]
     rfl rfl rfl (by decide) (by simp) rfl (by decide) (by decide) (by decide)⟩

/-! ## C8 (amended): the duplicate check compares object identity -/

/-- C8 amended.  Processing a `Transition`-valued member whose condition
resolves raises the duplicate-transition error precisely when the very same
transition object (same id) is already in the outgoing index of its source
state — i.e. the check is by object identity; otherwise the object is
appended, even if a distinct object with an identical
`(source, target, name)` triple is already indexed. -/
theorem duplicate_check_by_identity (sts : Nat → StateObj) (cls : MachineCls)
    (reg : Registry) (fc : Nat) (mn : String) (tid : Nat) (c : String)
    (hc : (reg.transStore tid).cond = some c)
    (hattr : clsHasAttrB cls c = true) :
    ((procTrans sts cls reg fc mn tid).2.2 = some (SMErr.transErr dupTransMsg)
      ↔ tid ∈ ddGet reg.transIdx ((reg.transStore tid).state1)) ∧
    (tid ∉ ddGet reg.transIdx ((reg.transStore tid).state1) →
      ddGet (procTrans sts cls reg fc mn tid).1.transIdx ((reg.transStore tid).state1)
        = ddGet reg.transIdx ((reg.transStore tid).state1) ++ [tid]) := by
  have hc' : (defaultName mn (reg.transStore tid)).cond = some c := by
    rw [defaultName_cond, hc]
  unfold procTrans
  dsimp only
  rw [hc']
  dsimp only
  simp only [setTrans_transIdx, defaultName_state1]
  rw [if_pos hattr]
  by_cases h2 : tid ∈ ddGet reg.transIdx ((reg.transStore tid).state1)
  · rw [if_pos h2]
    exact ⟨⟨fun _ => h2, fun _ => rfl⟩, fun hn => absurd h2 hn⟩
  · rw [if_neg h2]
    refine ⟨⟨fun hcontra => ?_, fun hmem => absurd hmem h2⟩, fun _ => ?_⟩
    · simp at hcontra
    · dsimp only
      rw [ddGet_ddAppend_self]

/-- C8 amended witness: in a registry whose outgoing index already holds
transition object 0 under its source, re-processing the same object raises
the duplicate error — by object identity. -/
theorem duplicate_check_by_identity_witness :
    ((regW.transStore 0).cond = some "c" ∧ clsHasAttrB cls8 "c" = true ∧
     0 ∈ ddGet regW.transIdx 0 ∧
     (procTrans sts1 cls8 regW 0 "m2" 0).2.2 = some (SMErr.transErr dupTransMsg)) ∧
    (((procTrans sts1 cls8 regW 0 "m2" 0).2.2 = some (SMErr.transErr dupTransMsg)
        ↔ 0 ∈ ddGet regW.transIdx ((regW.transStore 0).state1)) ∧
     (0 ∉ ddGet regW.transIdx ((regW.transStore 0).state1) →
       ddGet (procTrans sts1 cls8 regW 0 "m2" 0).1.transIdx ((regW.transStore 0).state1)
         = ddGet regW.transIdx ((regW.transStore 0).state1) ++ [0])) :=
  ⟨⟨rfl, by decide, by decide, by decide⟩,
   duplicate_check_by_identity sts1 cls8 regW 0 "m2" 0 "c" rfl (by decide)⟩

/-! ## C9: underscore members are silently skipped -/

/-- C9.  A member whose name starts with an underscore is skipped by the
member loop of the model build: inserting such a member anywhere in the
member list changes nothing — it is never classified, validated, or added
to the states set or the outgoing index. -/
theorem underscore_members_skipped (sts : Nat → StateObj) (cls : MachineCls)
    (reg : Registry) (fc : Nat) (pre post : List (String × MemberVal))
    (mn : String) (mv : MemberVal) (h : strStartsWith mn "_" = true) :
    procAll sts cls reg fc (pre ++ (mn, mv) :: post)
      = procAll sts cls reg fc (pre ++ post) := by
  induction pre generalizing reg fc with
  | nil =>
    rw [List.nil_append, List.nil_append, procAll, if_pos h]
  | cons p pre' ih =>
    rcases p with ⟨pn, pv⟩
    rw [List.cons_append, List.cons_append, procAll]
    conv_rhs => rw [procAll]
    by_cases hp : strStartsWith pn "_" = true
    · simp only [if_pos hp]
      exact ih reg fc
    · simp only [if_neg hp]
      rcases hpm : procMember sts cls reg fc pn pv with ⟨reg1, fc1, e⟩
      try rw [hpm]
      cases e with
      | none =>
        dsimp only
        exact ih reg1 fc1
      | some e' => rfl

/-- C9 witness: inserting an underscore-named member bound to a `State`
object in front of machine `M1`'s members leaves the build loop's result
unchanged. -/
theorem underscore_members_skipped_witness :
    strStartsWith "_hidden" "_" = true ∧
    procAll sts1 cls1 reg10 0 ([] ++ ("_hidden", MemberVal.stateM 5) :: cls1.members)
      = procAll sts1 cls1 reg10 0 ([] ++ cls1.members) :=
  ⟨by decide,
   underscore_members_skipped sts1 cls1 reg10 0 [] cls1.members "_hidden"
     (MemberVal.stateM 5) (by decide)⟩

/-! ## C10: item access never raises and ignores attributes on is_ keys -/

/-- C10.  For a constructed instance (one whose `_state` is set), indexing
never raises: a key starting with `"is_"` returns the boolean comparison of
the key against `"is_" + current state name` — regardless of any attribute
of that name — and any other key returns `getattr(self, key, None)`: the
attribute found by Python's resolution chain (base-class properties,
instance attributes including the engine-set ones, the subclass's declared
members and methods, the attributes inherited from `StateMachine`), or
`None` when no such attribute exists. -/
theorem getitem_branches_total (sts : Nat → StateObj) (cls : MachineCls)
    (reg : Registry) (inst : Inst) (sid : Nat) (hs : inst.stateSid = some sid)
    (item : String) :
    (strStartsWith item "is_" = true →
      getitem sts cls reg inst item
        = Except.ok (PyVal.vBool (decide (item = "is_" ++ (sts sid).name)))) ∧
    (strStartsWith item "is_" = false →
      getitem sts cls reg inst item = Except.ok (instGetattr cls reg inst item)) := by
  constructor
  · intro hpre
    unfold getitem
    dsimp only
    rw [if_pos hpre, hs]
  · intro hpre
    unfold getitem
    dsimp only
    rw [if_neg (by simp [hpre])]

/-- C10 witness: an instance at state `a1` carrying an instance attribute
named `is_a2` still answers `False` for `instance["is_a2"]` — the attribute
value is ignored on `is_` keys — while non-`is_` keys reach the full
attribute chain: `instance["state"]` yields the current `State` object,
`instance["cycle"]` the inherited method, `instance["_first_run"]` the
engine-set flag, and an unknown key yields `None`. -/
theorem getitem_branches_total_witness :
    (inst10.stateSid = some 0 ∧ strStartsWith "is_a2" "is_" = true ∧
     alookup inst10.attrs "is_a2" = some (PyVal.vStr "shadow") ∧
     getitem sts1 cls1 reg11 inst10 "is_a2" = Except.ok (PyVal.vBool false) ∧
     getitem sts1 cls1 reg11 inst10 "state" = Except.ok (PyVal.vState 0) ∧
     getitem sts1 cls1 reg11 inst10 "cycle" = Except.ok (PyVal.vMethod "cycle") ∧
     getitem sts1 cls1 reg11 inst10 "_first_run" = Except.ok (PyVal.vBool false) ∧
     getitem sts1 cls1 reg11 inst10 "_name" = Except.ok (PyVal.vStr "m") ∧
     getitem sts1 cls1 reg11 inst10 "nonsense" = Except.ok PyVal.vNone) ∧
    getitem sts1 cls1 reg11 inst10 "is_a2"
      = Except.ok (PyVal.vBool (decide ("is_a2" = "is_" ++ (sts1 0).name))) :=
  ⟨⟨rfl, by decide, by decide, by decide, by decide, by decide, by decide, by decide,
    by decide⟩,
   (getitem_branches_total sts1 cls1 reg11 inst10 0 rfl "is_a2").1 (by decide)⟩

end LeanSM
